import Mathlib

/-!
# Verification of the fidesctl policy-evaluation core

A shallow embedding of `src/fidesctl/src/fidesctl/core/evaluate.py`:
the rule/declaration comparator, the rule evaluator, the policy resolver
and the evaluation orchestrator, together with theorems settling the
specification claims about them.

Fides keys, data categories, uses, subjects and qualifiers are all
strings in the source (`FidesKey` is a constrained `str`); we model them
as `String`.  The remote resource API, the manifest parser and the
hydration helpers live outside the evaluated module and are modelled
from the specification, as noted on each definition.
-/

namespace Fides

/-- Inclusion modes of a rule (`InclusionEnum` in fideslang). -/
inductive InclusionEnum
  | ANY
  | ALL
  | NONE
deriving DecidableEq, Repr

/-- Evaluation outcome (`StatusEnum` in fideslang). -/
inductive StatusEnum
  | PASS
  | FAIL
deriving DecidableEq, Repr

/-- A rule dimension: a list of fides keys plus an inclusion mode
(`PrivacyRule` in fideslang, e.g. `rule.data_categories`). -/
structure PrivacyRule where
  inclusion : InclusionEnum
  values : List String
deriving DecidableEq, Repr

/-- A policy rule: three inclusion-typed dimensions and one qualifier. -/
structure PolicyRule where
  name : String
  data_categories : PrivacyRule
  data_uses : PrivacyRule
  data_subjects : PrivacyRule
  data_qualifier : String
deriving DecidableEq, Repr

/-- A policy: a fides key and its rules. -/
structure Policy where
  fides_key : String
  rules : List PolicyRule
deriving DecidableEq, Repr

/-- A privacy declaration of a system: note the single `data_use`,
asymmetric with the rule's multi-valued `data_uses`. -/
structure PrivacyDeclaration where
  name : String
  data_categories : List String
  data_use : String
  data_subjects : List String
  data_qualifier : String
deriving DecidableEq, Repr

/-- A system: a fides key and its privacy declarations. -/
structure System where
  fides_key : String
  privacy_declarations : List PrivacyDeclaration
deriving DecidableEq, Repr

/-- The slice of the taxonomy the evaluator reads: policies and systems. -/
structure Taxonomy where
  policy : List Policy
  system : List System
deriving DecidableEq, Repr

/-- The evaluation result (`Evaluation` in fideslang). -/
structure Evaluation where
  status : StatusEnum
  details : List String
  message : String := ""
deriving DecidableEq, Repr

/-- The error raised by the evaluation workflow (`EvaluationError`);
it carries no payload in the source. -/
inductive EvaluationError
  | mk
deriving DecidableEq, Repr

/--
`compare_rule_to_declaration` from `evaluate.py`: map each declaration
fides key to its membership in the rule's keys, then dispatch on the
inclusion mode: `ANY ↦ any`, `ALL ↦ all`, `NONE ↦ fun x => not (any x)`.
-/
def compare_rule_to_declaration (rule_types : List String)
    (declaration_types : List String) (rule_inclusion : InclusionEnum) : Bool :=
  let matching_data_categories :=
    declaration_types.map (fun data_category => rule_types.contains data_category)
  match rule_inclusion with
  | .ANY => matching_data_categories.any id
  | .ALL => matching_data_categories.all id
  | .NONE => !(matching_data_categories.any id)

/-- The violation detail string interpolated by `execute_evaluation`:
`"Declaration ({}) of System ({}) failed Rule ({}) from Policy ({})"`. -/
def evaluationDetail (declaration : PrivacyDeclaration) (system : System)
    (rule : PolicyRule) (policy : Policy) : String :=
  "Declaration (" ++ declaration.name ++ ") of System (" ++ system.fides_key ++
    ") failed Rule (" ++ rule.name ++ ") from Policy (" ++ policy.fides_key ++ ")"

/--
`execute_evaluation` from `evaluate.py`: the nested
policy → rule → system → declaration scan, appending a detail string for
every quadruple whose four dimension checks all hold (the declaration's
single `data_use` wrapped in a one-element list, the qualifier compared
by equality).  The nested `for` loops accumulating into
`evaluation_detail_list` are rendered as nested `List.bind` with a
`filterMap` innermost; the status is `FAIL` when the list is non-empty.
-/
def execute_evaluation (taxonomy : Taxonomy) : Evaluation :=
  let evaluation_detail_list :=
    taxonomy.policy.flatMap (fun policy =>
      policy.rules.flatMap (fun rule =>
        taxonomy.system.flatMap (fun system =>
          system.privacy_declarations.filterMap (fun declaration =>
            let data_category_result := compare_rule_to_declaration
              rule.data_categories.values declaration.data_categories
              rule.data_categories.inclusion
            let data_use_result := compare_rule_to_declaration
              rule.data_uses.values [declaration.data_use]
              rule.data_uses.inclusion
            let data_subject_result := compare_rule_to_declaration
              rule.data_subjects.values declaration.data_subjects
              rule.data_subjects.inclusion
            let data_qualifier_result :=
              declaration.data_qualifier == rule.data_qualifier
            if data_category_result && data_subject_result &&
                data_use_result && data_qualifier_result then
              some (evaluationDetail declaration system rule policy)
            else
              none))))
  let status_enum :=
    if evaluation_detail_list.length > 0 then StatusEnum.FAIL else StatusEnum.PASS
  { status := status_enum, details := evaluation_detail_list }

/-- The four dimension checks of `execute_evaluation` for one
(rule, declaration) pair, as a proposition. -/
def RuleMatches (rule : PolicyRule) (declaration : PrivacyDeclaration) : Prop :=
  compare_rule_to_declaration rule.data_categories.values
      declaration.data_categories rule.data_categories.inclusion = true ∧
  compare_rule_to_declaration rule.data_uses.values
      [declaration.data_use] rule.data_uses.inclusion = true ∧
  compare_rule_to_declaration rule.data_subjects.values
      declaration.data_subjects rule.data_subjects.inclusion = true ∧
  declaration.data_qualifier = rule.data_qualifier

instance (rule : PolicyRule) (declaration : PrivacyDeclaration) :
    Decidable (RuleMatches rule declaration) := by
  unfold RuleMatches; infer_instance

/-- A concrete rule used in end-to-end scenarios: single-element
`ANY` lists on every dimension. -/
def sampleRule : PolicyRule where
  name := "reject_targeted_advertising"
  data_categories := { inclusion := .ANY, values := ["user.derived"] }
  data_uses := { inclusion := .ANY, values := ["advertising"] }
  data_subjects := { inclusion := .ANY, values := ["customer"] }
  data_qualifier := "identified_data"

/-- A concrete policy holding `sampleRule`. -/
def samplePolicy : Policy where
  fides_key := "primary_privacy_policy"
  rules := [sampleRule]

/-- A concrete declaration matching `sampleRule` on all four dimensions. -/
def sampleDeclaration : PrivacyDeclaration where
  name := "collect_targeting_data"
  data_categories := ["user.derived"]
  data_use := "advertising"
  data_subjects := ["customer"]
  data_qualifier := "identified_data"

/-- A concrete system holding `sampleDeclaration`. -/
def sampleSystem : System where
  fides_key := "demo_system"
  privacy_declarations := [sampleDeclaration]

/-- One policy, one rule, one system, one fully matching declaration. -/
def sampleMatchingTaxonomy : Taxonomy where
  policy := [samplePolicy]
  system := [sampleSystem]

/-- Same shape, but the declaration's data use is changed so that no
quadruple matches. -/
def sampleCleanTaxonomy : Taxonomy where
  policy := [samplePolicy]
  system := [{ fides_key := "demo_system",
               privacy_declarations :=
                 [{ sampleDeclaration with data_use := "provide_service" }] }]

/-- Modelled from the spec: the remote resource API operation
`get(resource_type, key) -> Resource | None` (`get_server_resource` in
`fidesctl.core.api_helpers`, outside the evaluated module), specialised
to policies.  The server's policy store is a list; lookup returns the
first policy carrying the requested key, or nothing. -/
def get_server_resource (server_policies : List Policy)
    (resource_key : String) : Option Policy :=
  server_policies.find? (fun policy => policy.fides_key == resource_key)

/-- `get_all_server_policies` from `evaluate.py`, over the spec-modelled
remote API: list the keys of all server policies, drop the excluded ones
(a missing or empty `exclude` defaults to no exclusions, mirroring
`exclude if exclude else []`) and fetch each remaining key. -/
def get_all_server_policies (server_policies : List Policy)
    (exclude : Option (List String)) : List Policy :=
  let excl := exclude.getD []
  let policy_keys :=
    (server_policies.map (fun resource => resource.fides_key)).filter
      (fun k => !(excl.contains k))
  policy_keys.filterMap (fun k => get_server_resource server_policies k)

/-- `get_evaluation_policies` from `evaluate.py`: a truthy (non-empty)
target key selects the single-policy branch — first matching local
policy, else remote lookup, else nothing — while a falsy key selects all
local policies plus the non-conflicting server policies.  The
`local_policy_keys` exclusion list is `None` when there are no local
policies, mirroring the source's conditional expression. -/
def get_evaluation_policies (local_policies : List Policy)
    (evaluate_fides_key : String) (server_policies : List Policy) : List Policy :=
  if evaluate_fides_key ≠ "" then
    match local_policies.find?
        (fun policy => policy.fides_key == evaluate_fides_key) with
    | some local_policy_found => [local_policy_found]
    | none =>
      match get_server_resource server_policies evaluate_fides_key with
      | some server_policy_found => [server_policy_found]
      | none => []
  else
    let local_policy_keys : Option (List String) :=
      if local_policies.isEmpty then none
      else some (local_policies.map (fun policy => policy.fides_key))
    local_policies ++ get_all_server_policies server_policies local_policy_keys

/-- One console message of the workflow: `echo_red`, `echo_green`,
plain `print`, or the `pretty_echo` report of an evaluation. -/
inductive OutMsg
  | red (s : String)
  | green (s : String)
  | plain (s : String)
  | pretty (e : Evaluation)
deriving DecidableEq, Repr

deriving instance DecidableEq for Except

/-- `validate_policies_exist` from `evaluate.py`: on an empty policy
list, echo a red message (naming the key when one was given) and raise
`EvaluationError`; otherwise do nothing. -/
def validate_policies_exist (policies : List Policy)
    (evaluate_fides_key : String) : List OutMsg × Except EvaluationError Unit :=
  if policies.isEmpty then
    ([OutMsg.red (if evaluate_fides_key ≠ "" then
        "Policy " ++ evaluate_fides_key ++ " could not be found"
      else
        "No Policies found to evaluate")],
     Except.error EvaluationError.mk)
  else
    ([], Except.ok ())

/-- The taxonomy `evaluate` hands to `execute_evaluation`: the parsed
taxonomy with its policies replaced by the resolved ones, hydrated when
referenced resources are missing. -/
def evaluatedTaxonomy (server_policies : List Policy)
    (parsed_taxonomy : Taxonomy) (fides_key : String)
    (get_referenced_missing_keys : Taxonomy → List String)
    (hydrate_missing_resources : Taxonomy → List String → Taxonomy) : Taxonomy :=
  let taxonomy : Taxonomy :=
    { parsed_taxonomy with
      policy := get_evaluation_policies parsed_taxonomy.policy fides_key
        server_policies }
  let missing_resource_keys := get_referenced_missing_keys taxonomy
  if !missing_resource_keys.isEmpty then
    hydrate_missing_resources taxonomy missing_resource_keys
  else
    taxonomy

/-- `evaluate` from `evaluate.py`.  Collaborators from outside the
module are parameters, modelled from the spec: `parsed_taxonomy` stands
for `parse(manifests_dir)`, `server_policies` is the remote policy store
behind `get_server_resource` and `get_all_server_policies`, and
`get_referenced_missing_keys` / `hydrate_missing_resources` are the
reference resolver of `fideslang.relationships`.  Console output is
collected in a log, and `raise EvaluationError` becomes `Except.error`.
`dry` only selects console messages, as in the source. -/
def evaluate (server_policies : List Policy) (parsed_taxonomy : Taxonomy)
    (fides_key : String)
    (get_referenced_missing_keys : Taxonomy → List String)
    (hydrate_missing_resources : Taxonomy → List String → Taxonomy)
    (message : String) (dry : Bool) :
    List OutMsg × Except EvaluationError Evaluation :=
  let taxonomy : Taxonomy :=
    { parsed_taxonomy with
      policy := get_evaluation_policies parsed_taxonomy.policy fides_key
        server_policies }
  match validate_policies_exist taxonomy.policy fides_key with
  | (vlog, Except.error e) => (vlog, Except.error e)
  | (vlog, Except.ok _) =>
    let log1 := vlog ++
      [OutMsg.green ("Evaluating the following policies:\n" ++
          String.intercalate "\n"
            (taxonomy.policy.map (fun key => key.fides_key))),
        OutMsg.plain "----------",
        OutMsg.green "Checking for missing resources..."]
    let missing_resource_keys := get_referenced_missing_keys taxonomy
    let hydration_log :=
      if !missing_resource_keys.isEmpty then
        [OutMsg.green
            ("Fetching the following missing resources from the server:\n" ++
              String.intercalate "\n" missing_resource_keys),
          OutMsg.green "Hydrating the taxonomy..."]
      else
        []
    let hydrated_taxonomy :=
      if !missing_resource_keys.isEmpty then
        hydrate_missing_resources taxonomy missing_resource_keys
      else
        taxonomy
    let log2 := hydration_log ++ [OutMsg.green "Executing evaluations..."]
    let evaluation : Evaluation :=
      { execute_evaluation hydrated_taxonomy with message := message }
    if evaluation.status == StatusEnum.FAIL then
      (log1 ++ log2 ++ [OutMsg.pretty evaluation],
       Except.error EvaluationError.mk)
    else
      (log1 ++ log2 ++
        (if !dry then
          [OutMsg.green "Sending the evaluation results to the server..."]
        else []) ++
        [OutMsg.green "Evaluation passed!"],
       Except.ok evaluation)

/-- A rule-free policy with key `"A"`, for resolver scenarios. -/
def policyA : Policy where
  fides_key := "A"
  rules := []

/-- A rule-free policy with key `"B"`, for resolver scenarios. -/
def policyB : Policy where
  fides_key := "B"
  rules := []

/-- A rule-free policy with key `"C"`, for resolver scenarios. -/
def policyC : Policy where
  fides_key := "C"
  rules := []

end Fides

namespace Fides

/-- C1: `compare_rule_to_declaration` realises the three membership
quantifiers: `ANY` is "some declaration value is among the rule values",
`ALL` is "every declaration value is among the rule values", and `NONE`
is "no declaration value is among the rule values".  Being a Lean
function it is total and pure: no error conditions. -/
theorem C1_compare_semantics (rule_values declaration_values : List String) :
    (compare_rule_to_declaration rule_values declaration_values .ANY = true ↔
      ∃ d ∈ declaration_values, d ∈ rule_values) ∧
    (compare_rule_to_declaration rule_values declaration_values .ALL = true ↔
      ∀ d ∈ declaration_values, d ∈ rule_values) ∧
    (compare_rule_to_declaration rule_values declaration_values .NONE = true ↔
      ∀ d ∈ declaration_values, d ∉ rule_values) := by
  refine ⟨?_, ?_, ?_⟩ <;>
    simp [compare_rule_to_declaration, List.any_map, List.all_map,
      List.any_eq_true, List.all_eq_true, Function.comp]

/-- A detail string is produced by the scan iff some scanned quadruple
matches all four dimensions and formats to that string. -/
theorem mem_execute_evaluation_details (taxonomy : Taxonomy) (detail : String) :
    detail ∈ (execute_evaluation taxonomy).details ↔
      ∃ policy ∈ taxonomy.policy, ∃ rule ∈ policy.rules,
        ∃ system ∈ taxonomy.system,
          ∃ declaration ∈ system.privacy_declarations,
            RuleMatches rule declaration ∧
            detail = evaluationDetail declaration system rule policy := by
  simp only [execute_evaluation, List.mem_flatMap, List.mem_filterMap,
    Option.ite_none_right_eq_some, Option.some.injEq, Bool.and_eq_true,
    beq_iff_eq, RuleMatches]
  constructor
  · rintro ⟨p, hp, r, hr, s, hs, d, hd, ⟨⟨⟨hc, hsub⟩, hu⟩, hq⟩, hdet⟩
    exact ⟨p, hp, r, hr, s, hs, d, hd, ⟨hc, hu, hsub, hq⟩, hdet.symm⟩
  · rintro ⟨p, hp, r, hr, s, hs, d, hd, ⟨hc, hu, hsub, hq⟩, hdet⟩
    exact ⟨p, hp, r, hr, s, hs, d, hd, ⟨⟨⟨hc, hsub⟩, hu⟩, hq⟩, hdet.symm⟩

/-- Each of the four names interpolated into a detail string occurs in
it (as an infix of its character list). -/
theorem evaluationDetail_mentions_names (d : PrivacyDeclaration) (s : System)
    (r : PolicyRule) (p : Policy) :
    d.name.data <:+: (evaluationDetail d s r p).data ∧
    s.fides_key.data <:+: (evaluationDetail d s r p).data ∧
    r.name.data <:+: (evaluationDetail d s r p).data ∧
    p.fides_key.data <:+: (evaluationDetail d s r p).data := by
  refine ⟨⟨"Declaration (".data, ?_⟩, ⟨("Declaration (" ++ d.name ++ ") of System (").data, ?_⟩,
    ⟨("Declaration (" ++ d.name ++ ") of System (" ++ s.fides_key ++ ") failed Rule (").data, ?_⟩,
    ⟨("Declaration (" ++ d.name ++ ") of System (" ++ s.fides_key ++ ") failed Rule (" ++
      r.name ++ ") from Policy (").data, ?_⟩⟩
  · exact ⟨(") of System (" ++ s.fides_key ++ ") failed Rule (" ++ r.name ++
      ") from Policy (" ++ p.fides_key ++ ")").data, by
        simp [evaluationDetail, String.data_append]⟩
  · exact ⟨(") failed Rule (" ++ r.name ++ ") from Policy (" ++ p.fides_key ++ ")").data, by
      simp [evaluationDetail, String.data_append]⟩
  · exact ⟨(") from Policy (" ++ p.fides_key ++ ")").data, by
      simp [evaluationDetail, String.data_append]⟩
  · exact ⟨")".data, by simp [evaluationDetail, String.data_append]⟩

/-- C2: a violation detail is recorded for a scanned quadruple iff the
category, use (single `data_use` in a one-element list), subject and
qualifier checks all hold, and the recorded string names the
declaration, system, rule and policy. -/
theorem C2_violation_details (taxonomy : Taxonomy) (detail : String) :
    (detail ∈ (execute_evaluation taxonomy).details ↔
      ∃ policy ∈ taxonomy.policy, ∃ rule ∈ policy.rules,
        ∃ system ∈ taxonomy.system,
          ∃ declaration ∈ system.privacy_declarations,
            (compare_rule_to_declaration rule.data_categories.values
                declaration.data_categories rule.data_categories.inclusion = true ∧
              compare_rule_to_declaration rule.data_uses.values
                [declaration.data_use] rule.data_uses.inclusion = true ∧
              compare_rule_to_declaration rule.data_subjects.values
                declaration.data_subjects rule.data_subjects.inclusion = true ∧
              declaration.data_qualifier = rule.data_qualifier) ∧
            detail = evaluationDetail declaration system rule policy) ∧
    ∀ (d : PrivacyDeclaration) (s : System) (r : PolicyRule) (p : Policy),
      d.name.data <:+: (evaluationDetail d s r p).data ∧
      s.fides_key.data <:+: (evaluationDetail d s r p).data ∧
      r.name.data <:+: (evaluationDetail d s r p).data ∧
      p.fides_key.data <:+: (evaluationDetail d s r p).data :=
  ⟨mem_execute_evaluation_details taxonomy detail,
    evaluationDetail_mentions_names⟩

/-- C3: the status is `FAIL` exactly when some violation detail was
recorded, and `PASS` exactly when none was; end to end, the taxonomy
with one fully matching declaration fails with exactly one detail
string naming the declaration, system, rule and policy, while the
taxonomy with no matching quadruple passes with empty details. -/
theorem C3_status_and_end_to_end :
    (∀ taxonomy : Taxonomy,
      ((execute_evaluation taxonomy).status = .FAIL ↔
        (execute_evaluation taxonomy).details ≠ []) ∧
      ((execute_evaluation taxonomy).status = .PASS ↔
        (execute_evaluation taxonomy).details = [])) ∧
    (execute_evaluation sampleMatchingTaxonomy).status = .FAIL ∧
    (execute_evaluation sampleMatchingTaxonomy).details =
      [evaluationDetail sampleDeclaration sampleSystem sampleRule samplePolicy] ∧
    (sampleDeclaration.name.data <:+:
        (evaluationDetail sampleDeclaration sampleSystem sampleRule samplePolicy).data ∧
      sampleSystem.fides_key.data <:+:
        (evaluationDetail sampleDeclaration sampleSystem sampleRule samplePolicy).data ∧
      sampleRule.name.data <:+:
        (evaluationDetail sampleDeclaration sampleSystem sampleRule samplePolicy).data ∧
      samplePolicy.fides_key.data <:+:
        (evaluationDetail sampleDeclaration sampleSystem sampleRule samplePolicy).data) ∧
    (execute_evaluation sampleCleanTaxonomy).status = .PASS ∧
    (execute_evaluation sampleCleanTaxonomy).details = [] := by
  refine ⟨fun taxonomy => ?_, ?_, ?_,
    evaluationDetail_mentions_names sampleDeclaration sampleSystem sampleRule samplePolicy,
    ?_, ?_⟩
  · have h : (execute_evaluation taxonomy).status =
        if (execute_evaluation taxonomy).details.length > 0
        then StatusEnum.FAIL else StatusEnum.PASS := rfl
    rcases hl : (execute_evaluation taxonomy).details with _ | ⟨a, as⟩ <;>
      rw [h, hl] <;> simp
  · rfl
  · rfl
  · rfl
  · rfl

/-- C6: on an empty declaration-value list the comparator is vacuously
`true` for `NONE` and `ALL` and `false` for `ANY`, whatever the rule
values are. -/
theorem C6_compare_vacuous (rule_values : List String) :
    compare_rule_to_declaration rule_values [] .NONE = true ∧
    compare_rule_to_declaration rule_values [] .ALL = true ∧
    compare_rule_to_declaration rule_values [] .ANY = false :=
  ⟨rfl, rfl, rfl⟩

/-- In a list of policies with pairwise distinct keys, looking up the
key of a member finds exactly that member. -/
theorem find_by_key_of_nodup (l : List Policy)
    (hnd : (l.map (fun policy => policy.fides_key)).Nodup)
    (x : Policy) (hx : x ∈ l) :
    l.find? (fun y => y.fides_key == x.fides_key) = some x := by
  induction l with
  | nil => cases hx
  | cons a t ih =>
    rw [List.map_cons, List.nodup_cons] at hnd
    rcases hnd with ⟨ha, ht⟩
    rcases List.mem_cons.mp hx with rfl | hxt
    · simp [List.find?_cons]
    · have hne : a.fides_key ≠ x.fides_key := by
        intro he
        exact ha (he ▸ List.mem_map_of_mem (fun policy => policy.fides_key) hxt)
      rw [List.find?_cons_of_neg _ (by simpa using hne)]
      exact ih ht hxt

/-- With pairwise distinct server keys, `get_all_server_policies` is the
server store filtered to the non-excluded keys. -/
theorem get_all_server_policies_eq_filter (server_policies : List Policy)
    (exclude : Option (List String))
    (hnd : (server_policies.map (fun policy => policy.fides_key)).Nodup) :
    get_all_server_policies server_policies exclude =
      server_policies.filter
        (fun policy => !((exclude.getD []).contains policy.fides_key)) := by
  simp only [get_all_server_policies, get_server_resource, List.filter_map,
    List.filterMap_map, Function.comp]
  refine (List.filterMap_congr fun x hx => ?_).trans (List.filterMap_some _)
  exact find_by_key_of_nodup server_policies hnd x (List.mem_of_mem_filter hx)

/-- C4: with a non-empty target key, the resolver returns the first
matching local policy as a singleton — for every server store, so the
remote is never consulted — and only when no local policy matches does
it return what the remote lookup yields: a singleton on a hit, the
empty list on a miss. -/
theorem C4_targeted_resolution (local_policies : List Policy) (key : String)
    (hk : key ≠ "") :
    (∀ p, local_policies.find? (fun policy => policy.fides_key == key) = some p →
      ∀ server_policies,
        get_evaluation_policies local_policies key server_policies = [p]) ∧
    (local_policies.find? (fun policy => policy.fides_key == key) = none →
      ∀ server_policies,
        get_evaluation_policies local_policies key server_policies =
          match get_server_resource server_policies key with
          | some p => [p]
          | none => []) := by
  constructor
  · intro p hp server_policies
    unfold get_evaluation_policies
    rw [if_pos hk, hp]
  · intro hn server_policies
    unfold get_evaluation_policies
    rw [if_pos hk, hn]

/-- Witness for C4: with locals `[A, B]` and key `"A"` the result is
exactly `[A]` whatever the server holds, and with no locals and key
`"C"` the server policy `C` is fetched. -/
theorem C4_targeted_resolution_witness :
    get_evaluation_policies [policyA, policyB] "A" [policyC] = [policyA] ∧
    get_evaluation_policies [] "C" [policyC] = [policyC] := by
  constructor
  · exact (C4_targeted_resolution [policyA, policyB] "A" (by decide)).1
      policyA (by decide) [policyC]
  · exact ((C4_targeted_resolution [] "C" (by decide)).2 rfl [policyC]).trans
      (by decide)

/-- C5: with no target key and pairwise distinct server keys, the
resolver returns all local policies followed by exactly the server
policies whose key is not already local. -/
theorem C5_union_resolution (local_policies server_policies : List Policy)
    (hnd : (server_policies.map (fun policy => policy.fides_key)).Nodup) :
    get_evaluation_policies local_policies "" server_policies =
      local_policies ++ server_policies.filter
        (fun policy =>
          !((local_policies.map (fun q => q.fides_key)).contains
            policy.fides_key)) := by
  unfold get_evaluation_policies
  rw [if_neg (by simp)]
  cases local_policies with
  | nil => simp [get_all_server_policies_eq_filter _ _ hnd]
  | cons a t => simp [get_all_server_policies_eq_filter _ _ hnd]

/-- Witness for C5: locals `[A, B]` with server `[B, C]` resolve to
`[A, B, C]` — the local `B` wins and only `C` is taken remotely. -/
theorem C5_union_resolution_witness :
    ([policyB, policyC].map (fun policy => policy.fides_key)).Nodup ∧
    get_evaluation_policies [policyA, policyB] "" [policyB, policyC] =
      [policyA, policyB, policyC] :=
  ⟨by decide,
    (C5_union_resolution [policyA, policyB] [policyB, policyC]
      (by decide)).trans (by decide)⟩

/-- C10: the empty string is a falsy key, so the resolver takes the
all-policies branch verbatim — local policies plus the remote fetch
excluding local keys — never the single-policy lookup; in particular
with no local policies it still returns the whole server store rather
than looking up a policy keyed by the empty string. -/
theorem C10_empty_key_is_all_branch (local_policies server_policies : List Policy) :
    (get_evaluation_policies local_policies "" server_policies =
      local_policies ++ get_all_server_policies server_policies
        (if local_policies.isEmpty then none
         else some (local_policies.map (fun policy => policy.fides_key)))) ∧
    get_evaluation_policies [] "" [policyC] = [policyC] := by
  constructor
  · unfold get_evaluation_policies
    rw [if_neg (by simp)]
  · decide

/-- C7: when the resolver yields no policies, `evaluate` logs only the
red not-found message and raises `EvaluationError` — whatever the
reference resolver or hydrator would do, so no rule is ever executed
and no evaluation-stage message is logged. -/
theorem C7_no_policies_aborts (server_policies : List Policy)
    (parsed_taxonomy : Taxonomy) (fides_key : String)
    (get_referenced_missing_keys : Taxonomy → List String)
    (hydrate_missing_resources : Taxonomy → List String → Taxonomy)
    (message : String) (dry : Bool)
    (hempty : get_evaluation_policies parsed_taxonomy.policy fides_key
      server_policies = []) :
    evaluate server_policies parsed_taxonomy fides_key
        get_referenced_missing_keys hydrate_missing_resources message dry =
      ([OutMsg.red (if fides_key ≠ "" then
          "Policy " ++ fides_key ++ " could not be found"
        else
          "No Policies found to evaluate")],
       Except.error EvaluationError.mk) := by
  simp only [evaluate, validate_policies_exist, hempty, List.isEmpty_nil,
    if_true]

/-- Witness for C7: an empty taxonomy against an empty server store
aborts with the red message and the error. -/
theorem C7_no_policies_aborts_witness :
    evaluate [] { policy := [], system := [] } "" (fun _ => [])
        (fun t _ => t) "" true =
      ([OutMsg.red "No Policies found to evaluate"],
       Except.error EvaluationError.mk) :=
  (C7_no_policies_aborts [] { policy := [], system := [] } "" (fun _ => [])
    (fun t _ => t) "" true (by decide)).trans (by simp)

/-- C8: once policies resolve non-empty, if the evaluation computed on
the hydrated taxonomy (with the caller's message attached) has status
`FAIL` then `evaluate` raises `EvaluationError` and the last logged
message is the pretty-printed report of that very evaluation; a `PASS`
status never raises — the evaluation is returned. -/
theorem C8_fail_raises_after_report (server_policies : List Policy)
    (parsed_taxonomy : Taxonomy) (fides_key : String)
    (get_referenced_missing_keys : Taxonomy → List String)
    (hydrate_missing_resources : Taxonomy → List String → Taxonomy)
    (message : String) (dry : Bool)
    (hne : get_evaluation_policies parsed_taxonomy.policy fides_key
      server_policies ≠ []) :
    (({ execute_evaluation (evaluatedTaxonomy server_policies parsed_taxonomy
          fides_key get_referenced_missing_keys hydrate_missing_resources) with
        message := message } : Evaluation).status = StatusEnum.FAIL →
      (evaluate server_policies parsed_taxonomy fides_key
          get_referenced_missing_keys hydrate_missing_resources message
          dry).2 = Except.error EvaluationError.mk ∧
      ∃ l, (evaluate server_policies parsed_taxonomy fides_key
          get_referenced_missing_keys hydrate_missing_resources message
          dry).1 =
        l ++ [OutMsg.pretty
          { execute_evaluation (evaluatedTaxonomy server_policies
              parsed_taxonomy fides_key get_referenced_missing_keys
              hydrate_missing_resources) with message := message }]) ∧
    (({ execute_evaluation (evaluatedTaxonomy server_policies parsed_taxonomy
          fides_key get_referenced_missing_keys hydrate_missing_resources) with
        message := message } : Evaluation).status = StatusEnum.PASS →
      (evaluate server_policies parsed_taxonomy fides_key
          get_referenced_missing_keys hydrate_missing_resources message
          dry).2 = Except.ok
        { execute_evaluation (evaluatedTaxonomy server_policies
            parsed_taxonomy fides_key get_referenced_missing_keys
            hydrate_missing_resources) with message := message }) := by
  have hval : validate_policies_exist
      (get_evaluation_policies parsed_taxonomy.policy fides_key
        server_policies) fides_key = ([], Except.ok ()) := by
    unfold validate_policies_exist
    rw [if_neg (by simpa [List.isEmpty_iff] using hne)]
  constructor
  · intro hfail
    simp only [evaluatedTaxonomy] at hfail
    simp only [evaluate, hval, evaluatedTaxonomy, hfail]
    exact ⟨rfl, _, rfl⟩
  · intro hpass
    simp only [evaluatedTaxonomy] at hpass
    simp only [evaluate, hval, evaluatedTaxonomy, hpass]
    rfl

/-- Witness for C8: the fully matching sample taxonomy makes `evaluate`
raise after logging the report, and the clean sample taxonomy returns
its passing evaluation. -/
theorem C8_fail_raises_after_report_witness :
    ((evaluate [] sampleMatchingTaxonomy "" (fun _ => []) (fun t _ => t)
        "m" true).2 = Except.error EvaluationError.mk ∧
      ∃ l, (evaluate [] sampleMatchingTaxonomy "" (fun _ => [])
          (fun t _ => t) "m" true).1 =
        l ++ [OutMsg.pretty
          { execute_evaluation (evaluatedTaxonomy [] sampleMatchingTaxonomy
              "" (fun _ => []) (fun t _ => t)) with message := "m" }]) ∧
    (evaluate [] sampleCleanTaxonomy "" (fun _ => []) (fun t _ => t)
        "m" true).2 = Except.ok
      { execute_evaluation (evaluatedTaxonomy [] sampleCleanTaxonomy ""
          (fun _ => []) (fun t _ => t)) with message := "m" } :=
  ⟨(C8_fail_raises_after_report [] sampleMatchingTaxonomy "" (fun _ => [])
      (fun t _ => t) "m" true (by decide)).1 (by decide),
    (C8_fail_raises_after_report [] sampleCleanTaxonomy "" (fun _ => [])
      (fun t _ => t) "m" true (by decide)).2 (by decide)⟩

/-- When policies resolve non-empty, the outcome component of
`evaluate` is the error exactly on a failing status and otherwise the
message-carrying evaluation of the hydrated taxonomy. -/
theorem evaluate_snd_of_policies_nonempty (server_policies : List Policy)
    (parsed_taxonomy : Taxonomy) (fides_key : String)
    (get_referenced_missing_keys : Taxonomy → List String)
    (hydrate_missing_resources : Taxonomy → List String → Taxonomy)
    (message : String) (dry : Bool)
    (hne : get_evaluation_policies parsed_taxonomy.policy fides_key
      server_policies ≠ []) :
    (evaluate server_policies parsed_taxonomy fides_key
        get_referenced_missing_keys hydrate_missing_resources message
        dry).2 =
      if ((execute_evaluation (evaluatedTaxonomy server_policies
          parsed_taxonomy fides_key get_referenced_missing_keys
          hydrate_missing_resources)).status == StatusEnum.FAIL) = true then
        Except.error EvaluationError.mk
      else
        Except.ok { execute_evaluation (evaluatedTaxonomy server_policies
          parsed_taxonomy fides_key get_referenced_missing_keys
          hydrate_missing_resources) with message := message } := by
  have hval : validate_policies_exist
      (get_evaluation_policies parsed_taxonomy.policy fides_key
        server_policies) fides_key = ([], Except.ok ()) := by
    unfold validate_policies_exist
    rw [if_neg (by simpa [List.isEmpty_iff] using hne)]
  simp only [evaluate, hval, evaluatedTaxonomy]
  exact apply_ite Prod.snd _ _ _

/-- C9: any evaluation actually returned (not raised past) by
`evaluate` has status `PASS` and carries the caller-supplied message. -/
theorem C9_returned_evaluation_passes (server_policies : List Policy)
    (parsed_taxonomy : Taxonomy) (fides_key : String)
    (get_referenced_missing_keys : Taxonomy → List String)
    (hydrate_missing_resources : Taxonomy → List String → Taxonomy)
    (message : String) (dry : Bool) (ev : Evaluation)
    (hok : (evaluate server_policies parsed_taxonomy fides_key
        get_referenced_missing_keys hydrate_missing_resources message
        dry).2 = Except.ok ev) :
    ev.status = StatusEnum.PASS ∧ ev.message = message := by
  by_cases hne : get_evaluation_policies parsed_taxonomy.policy fides_key
      server_policies = []
  · rw [show (evaluate server_policies parsed_taxonomy fides_key
        get_referenced_missing_keys hydrate_missing_resources message dry).2 =
          Except.error EvaluationError.mk from by
        simp only [evaluate, validate_policies_exist, hne, List.isEmpty_nil,
          if_true]] at hok
    cases hok
  · rw [evaluate_snd_of_policies_nonempty server_policies parsed_taxonomy
      fides_key get_referenced_missing_keys hydrate_missing_resources
      message dry hne] at hok
    split at hok
    · cases hok
    next hcond =>
      rw [Except.ok.injEq] at hok
      subst hok
      refine ⟨?_, rfl⟩
      have hn : (execute_evaluation (evaluatedTaxonomy server_policies
          parsed_taxonomy fides_key get_referenced_missing_keys
          hydrate_missing_resources)).status ≠ StatusEnum.FAIL := by
        simpa using hcond
      rcases hst : (execute_evaluation (evaluatedTaxonomy server_policies
          parsed_taxonomy fides_key get_referenced_missing_keys
          hydrate_missing_resources)).status with _ | _
      · rfl
      · exact absurd hst hn

/-- Witness for C9: the clean sample taxonomy makes `evaluate` return
an evaluation, and that evaluation passes with the caller's message. -/
theorem C9_returned_evaluation_passes_witness :
    ({ status := StatusEnum.PASS, details := [],
        message := "ok" } : Evaluation).status = StatusEnum.PASS ∧
    ({ status := StatusEnum.PASS, details := [],
        message := "ok" } : Evaluation).message = "ok" :=
  C9_returned_evaluation_passes [] sampleCleanTaxonomy "" (fun _ => [])
    (fun t _ => t) "ok" true
    { status := StatusEnum.PASS, details := [], message := "ok" } (by decide)

end Fides
